import Mathlib

/-!
Verification development for the cloud-buckets-sync repository.

Shallow embedding conventions:
- timestamps (Python datetime) are Nat: the embedded code only compares,
  copies and renders them;
- Python dicts are insertion-ordered association lists;
- the SQLite file_records table is the list of its rows in rowid
  (insertion) order, with the UNIQUE(file_path) schema constraint stated
  as an invariant and INSERT failures on it modelled as Option/Except;
- pandas DataFrame cells read from a CSV are Option String, none playing
  the role of NaN for an empty cell;
- fallible steps (HTTP calls, S3 calls, raised exceptions) are explicit
  sum types or booleans threaded through the control flow.
-/

namespace CloudSync

/-- FileRecord value type (src/sync_service/models/data_models.py). -/
structure FileRecord where
  file_path : String
  permissions : String
  size : Int
  file_type : String
  last_modified : Nat
  internal_id : Option String := none
deriving DecidableEq, Repr

/-- PubSubEvent value type (src/sync_service/models/data_models.py); the
metadata dict carries string values (str() is applied on extraction and
int() on sizes in the consumers). -/
structure PubSubEvent where
  event_type : String
  file_path : String
  timestamp : Nat
  new_path : Option String := none
  metadata : Option (List (String × String)) := none
deriving DecidableEq, Repr

/-- The file_records table (database_manager.py create_tables), as its rows
in rowid order. -/
abbrev DB := List FileRecord

/-- DatabaseManager.get_file_record: SELECT ... WHERE file_path = ?
(first matching row; unique when the schema invariant holds). -/
def get_file_record (db : DB) (p : String) : Option FileRecord :=
  db.find? (fun r => decide (r.file_path = p))

/-- DatabaseManager.insert_file_record: plain INSERT; none models the
sqlite3.IntegrityError raised when the UNIQUE(file_path) constraint is
violated. -/
def insert_file_record (db : DB) (r : FileRecord) : Option DB :=
  if db.any (fun x => decide (x.file_path = r.file_path)) then none
  else some (db ++ [r])

/-- DatabaseManager.update_file_record: UPDATE ... WHERE file_path = ?;
every row with the path takes the new field values, rows with other paths
and a store with no such row are untouched. -/
def update_file_record (db : DB) (r : FileRecord) : DB :=
  db.map (fun x => if x.file_path = r.file_path then r else x)

/-- DatabaseManager.delete_file_record: DELETE ... WHERE file_path = ?
(a no-op when the path is absent). -/
def delete_file_record (db : DB) (p : String) : DB :=
  db.filter (fun x => !decide (x.file_path = p))

/-- DatabaseManager.upsert_file_record: INSERT OR REPLACE removes any row
conflicting on file_path and inserts the new row (fresh rowid, hence at the
end in rowid order). -/
def upsert_file_record (db : DB) (r : FileRecord) : DB :=
  db.filter (fun x => !decide (x.file_path = r.file_path)) ++ [r]

/-- DatabaseManager.clear_all_records: DELETE FROM file_records. -/
def clear_all_records (_db : DB) : DB := []

/-- One row of DatabaseManager.import_from_csv: try insert, fall back to
update on a uniqueness conflict. -/
def importCsvRow (db : DB) (r : FileRecord) : DB :=
  match insert_file_record db r with
  | some db2 => db2
  | none => update_file_record db r

/-- DatabaseManager.import_from_csv after row parsing: each non-blank row
inserted, falling back to update. -/
def importFromCsv (db : DB) (rows : List FileRecord) : DB :=
  rows.foldl importCsvRow db

/-- DatabaseManager.get_record_count: SELECT COUNT(*). -/
def get_record_count (db : DB) : Nat := db.length

/-- The schema invariant: file_path TEXT UNIQUE NOT NULL. -/
def pathsUnique (db : DB) : Prop :=
  (db.map (fun r => r.file_path)).Nodup

theorem pathsUnique_filter (db : DB) (q : FileRecord → Bool)
    (h : pathsUnique db) : pathsUnique (db.filter q) := by
  unfold pathsUnique at h ⊢
  exact h.sublist (List.Sublist.map _ (List.filter_sublist db))

theorem notMem_path_filter_ne (db : DB) (r : FileRecord) :
    r.file_path ∉
      (db.filter (fun x => !decide (x.file_path = r.file_path))).map
        (fun x => x.file_path) := by
  simp [List.mem_filter]

theorem pathsUnique_filter_append (db : DB) (r : FileRecord)
    (h : pathsUnique db) :
    pathsUnique (db.filter (fun x => !decide (x.file_path = r.file_path)) ++ [r]) := by
  unfold pathsUnique
  rw [List.map_append, List.nodup_append]
  refine ⟨pathsUnique_filter db _ h, List.nodup_singleton _, ?_⟩
  intro a ha hb
  simp only [List.map_cons, List.map_nil, List.mem_singleton] at hb
  subst hb
  exact notMem_path_filter_ne db r ha

theorem pathsUnique_upsert (db : DB) (r : FileRecord) (h : pathsUnique db) :
    pathsUnique (upsert_file_record db r) :=
  pathsUnique_filter_append db r h

theorem pathsUnique_update (db : DB) (r : FileRecord) (h : pathsUnique db) :
    pathsUnique (update_file_record db r) := by
  unfold pathsUnique update_file_record
  have hmap : (db.map (fun x => if x.file_path = r.file_path then r else x)).map
      (fun x => x.file_path) = db.map (fun x => x.file_path) := by
    rw [List.map_map]
    refine List.map_congr_left ?_
    intro x _
    by_cases hx : x.file_path = r.file_path
    · simp [hx]
    · simp [hx]
  rw [hmap]
  exact h

theorem pathsUnique_insert (db : DB) (r : FileRecord) (db2 : DB)
    (h : pathsUnique db) (hins : insert_file_record db r = some db2) :
    pathsUnique db2 := by
  unfold insert_file_record at hins
  cases hany : db.any (fun x => decide (x.file_path = r.file_path)) with
  | true => rw [hany] at hins; simp at hins
  | false =>
    rw [hany] at hins
    simp only [Bool.false_eq_true, if_false, Option.some.injEq] at hins
    subst hins
    unfold pathsUnique
    rw [List.map_append, List.nodup_append]
    refine ⟨h, List.nodup_singleton _, ?_⟩
    intro a ha hb
    simp only [List.map_cons, List.map_nil, List.mem_singleton] at hb
    subst hb
    simp only [List.any_eq_false, decide_eq_true_eq] at hany
    simp only [List.mem_map] at ha
    obtain ⟨x, hx, hxa⟩ := ha
    exact hany x hx hxa

theorem pathsUnique_importRow (db : DB) (r : FileRecord) (h : pathsUnique db) :
    pathsUnique (importCsvRow db r) := by
  unfold importCsvRow
  cases hins : insert_file_record db r with
  | some db2 => exact pathsUnique_insert db r db2 h hins
  | none => exact pathsUnique_update db r h

theorem pathsUnique_importFromCsv (db : DB) (rows : List FileRecord)
    (h : pathsUnique db) : pathsUnique (importFromCsv db rows) := by
  induction rows generalizing db with
  | nil => exact h
  | cons r rest ih => exact ih (importCsvRow db r) (pathsUnique_importRow db r h)

theorem upsert_twice_same_path (db : DB) (r₁ r₂ : FileRecord)
    (hp : r₁.file_path = r₂.file_path) :
    upsert_file_record (upsert_file_record db r₁) r₂ =
      db.filter (fun x => !decide (x.file_path = r₂.file_path)) ++ [r₂] := by
  unfold upsert_file_record
  rw [List.filter_append]
  have h1 : List.filter (fun x => !decide (x.file_path = r₂.file_path)) [r₁] = [] := by
    simp [hp]
  rw [h1, List.append_nil, List.filter_filter]
  congr 1
  refine List.filter_congr ?_
  intro x _
  rw [hp]
  cases hx : decide (x.file_path = r₂.file_path) <;> simp [hx]

theorem filter_eq_path_of_filter_ne_append (db : DB) (r : FileRecord) :
    (db.filter (fun x => !decide (x.file_path = r.file_path)) ++ [r]).filter
      (fun x => decide (x.file_path = r.file_path)) = [r] := by
  rw [List.filter_append, List.filter_filter]
  have h1 : db.filter (fun x => decide (x.file_path = r.file_path) &&
      !decide (x.file_path = r.file_path)) = [] := by
    apply List.filter_eq_nil_iff.mpr
    intro x _
    cases hx : decide (x.file_path = r.file_path) <;> simp [hx]
  rw [h1]
  simp

/-- C8: every Database Manager mutating operation preserves uniqueness of
file_path among stored rows, and upserting the same file_path twice with
different field values leaves exactly one row for that path, holding the
second call's values. -/
theorem database_manager_invariants (db : DB) (r r₁ r₂ : FileRecord)
    (p : String) (rows : List FileRecord) (h : pathsUnique db) :
    (∀ db2, insert_file_record db r = some db2 → pathsUnique db2) ∧
    pathsUnique (update_file_record db r) ∧
    pathsUnique (upsert_file_record db r) ∧
    pathsUnique (delete_file_record db p) ∧
    pathsUnique (clear_all_records db) ∧
    pathsUnique (importFromCsv db rows) ∧
    (r₁.file_path = r₂.file_path →
      (upsert_file_record (upsert_file_record db r₁) r₂).filter
          (fun x => decide (x.file_path = r₂.file_path)) = [r₂] ∧
      pathsUnique (upsert_file_record (upsert_file_record db r₁) r₂)) := by
  refine ⟨fun db2 hins => pathsUnique_insert db r db2 h hins,
    pathsUnique_update db r h,
    pathsUnique_upsert db r h,
    pathsUnique_filter db _ h,
    List.nodup_nil,
    pathsUnique_importFromCsv db rows h, ?_⟩
  intro hp
  constructor
  · rw [upsert_twice_same_path db r₁ r₂ hp]
    exact filter_eq_path_of_filter_ne_append db r₂
  · exact pathsUnique_upsert _ r₂ (pathsUnique_upsert db r₁ h)

/-- C8 witness: the invariant theorem applied to a concrete store and a
concrete pair of upserts on one path. -/
theorem database_manager_invariants_witness :
    (upsert_file_record
        (upsert_file_record [⟨"a.txt", "rw-r--r--", 3, "text/plain", 1, none⟩]
          ⟨"b.txt", "rw-r--r--", 4, "text/plain", 2, none⟩)
        ⟨"b.txt", "rwxr-xr-x", 9, "text/plain", 5, some "id9"⟩).filter
      (fun x => decide (x.file_path = "b.txt")) =
      [⟨"b.txt", "rwxr-xr-x", 9, "text/plain", 5, some "id9"⟩] :=
  ((database_manager_invariants
      [⟨"a.txt", "rw-r--r--", 3, "text/plain", 1, none⟩]
      ⟨"a.txt", "rw-r--r--", 3, "text/plain", 1, none⟩
      ⟨"b.txt", "rw-r--r--", 4, "text/plain", 2, none⟩
      ⟨"b.txt", "rwxr-xr-x", 9, "text/plain", 5, some "id9"⟩
      "a.txt" [] (by unfold pathsUnique; decide)).2.2.2.2.2.2 rfl).1

/-- Metadata of a FileOperation as the orchestrator's executor consumes it
(dict.get per field): none models an absent key. last_modified is
pre-parsed to an instant; the code writes datetime.now().isoformat() as the
default before parsing, so an absent value parses to the current time. -/
structure OpMetadata where
  permissions : Option String := none
  size : Option Int := none
  file_type : Option String := none
  last_modified : Option Nat := none
  internal_id : Option String := none
deriving DecidableEq, Repr

/-- The FileRecord built inside SyncService._execute_update_operation
(sync_service.py lines 519-526), with the code's dict.get defaults. -/
def recordFromOperationMetadata (p : String) (m : OpMetadata) (now : Nat) :
    FileRecord :=
  { file_path := p
    permissions := m.permissions.getD "rw-r--r--"
    size := m.size.getD 0
    file_type := m.file_type.getD "application/octet-stream"
    last_modified := m.last_modified.getD now
    internal_id := m.internal_id }

/-- SyncService._execute_update_operation: builds the record from the
operation metadata and calls DatabaseManager.update_file_record. The Nat
counts the remote calls made by the body (S3 object fetches plus
infrastructure-API save_to_disk uploads): the body makes none, in contrast
with _execute_create_operation. -/
def execute_update_operation (db : DB) (p : String) (m : OpMetadata)
    (now : Nat) : DB × Nat :=
  (update_file_record db (recordFromOperationMetadata p m now), 0)

theorem find?_update_file_record (db : DB) (r : FileRecord) :
    get_file_record (update_file_record db r) r.file_path =
      (get_file_record db r.file_path).map (fun _ => r) := by
  induction db with
  | nil => rfl
  | cons x xs ih =>
    unfold get_file_record update_file_record at ih ⊢
    by_cases hx : x.file_path = r.file_path
    · simp [List.find?, hx]
    · simp only [List.map_cons, if_neg hx, List.find?]
      rw [decide_eq_false hx]
      exact ih

theorem map_path_update_file_record (db : DB) (r : FileRecord) :
    (update_file_record db r).map (fun x => x.file_path) =
      db.map (fun x => x.file_path) := by
  unfold update_file_record
  rw [List.map_map]
  refine List.map_congr_left ?_
  intro x _
  by_cases hx : x.file_path = r.file_path
  · simp [hx]
  · simp [hx]

/-- C1 counterexample: an update operation executed against a store with no
row at the operation's file_path leaves the store without any record at
that path — the executor does not upsert, so the claimed postcondition
fails when no row existed before. -/
theorem update_executor_upsert_counterexample :
    get_file_record
      (execute_update_operation [] "docs/readme.md"
        { permissions := some "rw-r--r--", size := some 7,
          file_type := some "text/plain", last_modified := some 11,
          internal_id := some "id1" } 3).1 "docs/readme.md" = none := by
  rfl

/-- C1 (amended): an update operation makes no remote content fetch or
upload, never changes the set of stored paths (so no record is created when
none existed), and when a row at the operation's file_path does exist it
afterwards holds exactly the record built from the operation's metadata
with defaults permissions rw-r--r--, size 0,
file_type application/octet-stream and last_modified parsed from metadata
or else the current time. -/
theorem update_executor_characterization (db : DB) (p : String)
    (m : OpMetadata) (now : Nat) :
    (execute_update_operation db p m now).2 = 0 ∧
    ((execute_update_operation db p m now).1.map (fun x => x.file_path) =
      db.map (fun x => x.file_path)) ∧
    get_file_record (execute_update_operation db p m now).1 p =
      (get_file_record db p).map
        (fun _ => recordFromOperationMetadata p m now) := by
  refine ⟨rfl, map_path_update_file_record db _, ?_⟩
  have h := find?_update_file_record db (recordFromOperationMetadata p m now)
  exact h

/-- Accumulate decimal digits; none on the first non-digit character. -/
def digitsToNatAux : List Char → Nat → Option Nat
  | [], acc => some acc
  | c :: cs, acc =>
    if c.isDigit then digitsToNatAux cs (acc * 10 + (c.toNat - 48)) else none

/-- Python int() applied to metadata text: an optional sign followed by at
least one decimal digit; none models the ValueError on anything else. -/
def pyInt (s : String) : Option Int :=
  match s.data with
  | [] => none
  | c :: cs =>
    if c = '-' then
      match cs with
      | [] => none
      | _ => (digitsToNatAux cs 0).map (fun n => -(n : Int))
    else (digitsToNatAux (c :: cs) 0).map (fun n => (n : Int))

/-- Truthiness of an Optional[str]: Python treats None and the empty string
as falsy. -/
def truthyStrOpt : Option String → Bool
  | none => false
  | some s => !decide (s = "")

/-- EventProcessor._validate_event as a predicate: false exactly when one of
its ValueError raises fires. The isinstance(timestamp, datetime) check
always passes in this embedding, where timestamps are well typed. -/
def validate_event (e : PubSubEvent) : Bool :=
  !decide (e.event_type = "") &&
  ["change_permission", "delete", "create", "rename", "move"].contains e.event_type &&
  !decide (e.file_path = "") &&
  (!(["rename", "move"].contains e.event_type) || truthyStrOpt e.new_path)

/-- EventProcessor._extract_permissions_from_metadata: probe the keys
permissions, permission, perms, access in order, first present wins; str()
of the stored value is the value itself here, metadata values being text.
The falsy-metadata early return coincides with the probe finding nothing. -/
def extract_permissions_from_metadata :
    Option (List (String × String)) → Option String
  | none => none
  | some m =>
    ["permissions", "permission", "perms", "access"].findSome?
      (fun k => m.lookup k)

/-- EventProcessor._create_file_record_from_event: none models both the
missing/empty-metadata early return and the int() ValueError on an
unparsable size (pyInt standing for int() on the stored text). -/
def create_file_record_from_event (e : PubSubEvent) : Option FileRecord :=
  match e.metadata with
  | none => none
  | some m =>
    if m.isEmpty then none
    else
      match (match m.lookup "size" with
             | none => some 0
             | some s => pyInt s) with
      | none => none
      | some sz =>
        some { file_path := e.file_path
               permissions := (extract_permissions_from_metadata (some m)).getD "unknown"
               size := sz
               file_type := ((m.lookup "file_type").getD "unknown")
               last_modified := e.timestamp
               internal_id := m.lookup "internal_id" }

/-- Result of one event handler: the store afterwards, and whether the
handler raised (true models an escaped exception reaching the batch loop's
except clause). -/
abbrev HandlerResult := DB × Bool

/-- An insert_file_record call inside a handler: a duplicate-path
IntegrityError escapes the handler. -/
def insertOrRaise (db : DB) (r : FileRecord) : HandlerResult :=
  match insert_file_record db r with
  | some db2 => (db2, false)
  | none => (db, true)

/-- EventProcessor._handle_change_permission: missing record or missing
permission metadata is a logged no-op. -/
def handle_change_permission (db : DB) (e : PubSubEvent) : HandlerResult :=
  match get_file_record db e.file_path with
  | none => (db, false)
  | some r =>
    match extract_permissions_from_metadata e.metadata with
    | none => (db, false)
    | some perms =>
      (update_file_record db
        { r with permissions := perms, last_modified := e.timestamp }, false)

/-- EventProcessor._handle_delete: missing record is a logged no-op. -/
def handle_delete (db : DB) (e : PubSubEvent) : HandlerResult :=
  match get_file_record db e.file_path with
  | none => (db, false)
  | some _ => (delete_file_record db e.file_path, false)

/-- EventProcessor._handle_create: an existing record, or a record the
metadata cannot build, is a logged no-op (no overwrite, no raise). -/
def handle_create (db : DB) (e : PubSubEvent) : HandlerResult :=
  match get_file_record db e.file_path with
  | some _ => (db, false)
  | none =>
    match create_file_record_from_event e with
    | none => (db, false)
    | some r => insertOrRaise db r

/-- EventProcessor._handle_rename: missing record is a logged no-op;
otherwise delete the old row and insert the path-swapped row with
last_modified set to the event timestamp. -/
def handle_rename (db : DB) (e : PubSubEvent) : HandlerResult :=
  match get_file_record db e.file_path with
  | none => (db, false)
  | some r =>
    let db1 := delete_file_record db e.file_path
    insertOrRaise db1
      { r with file_path := e.new_path.getD "", last_modified := e.timestamp }

/-- EventProcessor._handle_move: the rename path swap plus a metadata
overlay guarded by metadata truthiness; permissions and file_type overlay
only when truthy, size overlays when present and raises int()'s ValueError
(after the delete, before the insert) when unparsable. -/
def handle_move (db : DB) (e : PubSubEvent) : HandlerResult :=
  match get_file_record db e.file_path with
  | none => (db, false)
  | some r =>
    let db1 := delete_file_record db e.file_path
    let base : FileRecord :=
      { r with file_path := e.new_path.getD "", last_modified := e.timestamp }
    match e.metadata with
    | none => insertOrRaise db1 base
    | some m =>
      if m.isEmpty then insertOrRaise db1 base
      else
        let b1 :=
          match extract_permissions_from_metadata (some m) with
          | some perms =>
            if perms = "" then base else { base with permissions := perms }
          | none => base
        let overlayFt := fun (b : FileRecord) =>
          match m.lookup "file_type" with
          | some ft => if ft = "" then b else { b with file_type := ft }
          | none => b
        match m.lookup "size" with
        | some s =>
          match pyInt s with
          | none => (db1, true)
          | some n => insertOrRaise db1 (overlayFt { b1 with size := n })
        | none => insertOrRaise db1 (overlayFt b1)

/-- EventProcessor._process_single_event: dispatch over the handler map;
an unknown type raises (unreachable after validation). -/
def process_single_event (db : DB) (e : PubSubEvent) : HandlerResult :=
  if e.event_type = "change_permission" then handle_change_permission db e
  else if e.event_type = "delete" then handle_delete db e
  else if e.event_type = "create" then handle_create db e
  else if e.event_type = "rename" then handle_rename db e
  else if e.event_type = "move" then handle_move db e
  else (db, true)

/-- The event_counts dict of process_events, in its key insertion order. -/
abbrev EventCounts := List (String × Nat)

/-- The dict literal initialising event_counts in process_events. -/
def initialEventCounts : EventCounts :=
  [("change_permission", 0), ("delete", 0), ("create", 0), ("rename", 0),
   ("move", 0), ("errors", 0)]

/-- event_counts[k] += 1 on a dict that holds k. -/
def incrementCount (c : EventCounts) (k : String) : EventCounts :=
  c.map (fun kv => if kv.1 = k then (kv.1, kv.2 + 1) else kv)

/-- Stable insertion of an event into a timestamp-ascending list, the
building block of the sorted(events, key=timestamp) call. -/
def orderedInsertTs (e : PubSubEvent) : List PubSubEvent → List PubSubEvent
  | [] => [e]
  | x :: xs =>
    if e.timestamp ≤ x.timestamp then e :: x :: xs
    else x :: orderedInsertTs e xs

/-- sorted(events, key=lambda e: e.timestamp): a stable ascending sort. -/
def sortByTimestamp : List PubSubEvent → List PubSubEvent
  | [] => []
  | x :: xs => orderedInsertTs x (sortByTimestamp xs)

/-- The body of process_events' per-event loop: validate, dispatch, count;
a validation failure or escaped handler exception increments errors. -/
def processEventsStep (acc : DB × EventCounts) (e : PubSubEvent) :
    DB × EventCounts :=
  if validate_event e then
    match process_single_event acc.1 e with
    | (db2, false) => (db2, incrementCount acc.2 e.event_type)
    | (db2, true) => (db2, incrementCount acc.2 "errors")
  else (acc.1, incrementCount acc.2 "errors")

/-- EventProcessor.process_events: empty input returns the empty dict with
no store access; otherwise sort ascending by timestamp, then validate,
dispatch and count each event. -/
def process_events (db : DB) (events : List PubSubEvent) : DB × EventCounts :=
  if events.isEmpty then (db, [])
  else (sortByTimestamp events).foldl processEventsStep (db, initialEventCounts)

theorem incrementCount_keys (c : EventCounts) (k : String) :
    (incrementCount c k).map Prod.fst = c.map Prod.fst := by
  unfold incrementCount
  rw [List.map_map]
  refine List.map_congr_left ?_
  intro kv _
  by_cases h : kv.1 = k
  · simp [h]
  · simp [h]

theorem processEventsStep_keys (acc : DB × EventCounts) (e : PubSubEvent) :
    (processEventsStep acc e).2.map Prod.fst = acc.2.map Prod.fst := by
  unfold processEventsStep
  by_cases hv : validate_event e = true
  · rw [if_pos hv]
    rcases hps : process_single_event acc.1 e with ⟨db2, b⟩
    cases b
    · exact incrementCount_keys acc.2 e.event_type
    · exact incrementCount_keys acc.2 "errors"
  · rw [if_neg hv]
    exact incrementCount_keys acc.2 "errors"

theorem foldl_processEventsStep_keys (es : List PubSubEvent)
    (acc : DB × EventCounts) :
    (es.foldl processEventsStep acc).2.map Prod.fst = acc.2.map Prod.fst := by
  induction es generalizing acc with
  | nil => rfl
  | cons e rest ih =>
    rw [List.foldl_cons, ih]
    exact processEventsStep_keys acc e

/-- C3 counterexample: on the empty input list process_events returns the
empty dict, which does not contain the six counter keys; the all-keys
guarantee fails for that input. -/
theorem process_events_keys_counterexample :
    (process_events [] []).2 = [] ∧
    ¬ ("create" ∈ (process_events [] []).2.map Prod.fst) := by
  exact ⟨rfl, by decide⟩

/-- C3 (amended): for every non-empty input list the map returned by
process_events has exactly the six keys change_permission, delete, create,
rename, move, errors (initialised to 0 and only incremented), while the
empty input list returns the empty map and leaves the store untouched with
no store access. -/
theorem process_events_keys (db : DB) (events : List PubSubEvent)
    (h : events ≠ []) :
    (process_events db events).2.map Prod.fst =
      ["change_permission", "delete", "create", "rename", "move", "errors"] ∧
    process_events db [] = (db, []) := by
  constructor
  · unfold process_events
    rw [if_neg (by simp [h])]
    rw [foldl_processEventsStep_keys]
    rfl
  · rfl

/-- C3 witness: the amended theorem applied to a concrete one-event list. -/
theorem process_events_keys_witness :
    (process_events [] [⟨"delete", "file1", 5, none, none⟩]).2.map Prod.fst =
      ["change_permission", "delete", "create", "rename", "move", "errors"] :=
  (process_events_keys [] [⟨"delete", "file1", 5, none, none⟩] (by decide)).1

/-- Timestamp-ascending orderings of an event list. -/
abbrev SortedTs (l : List PubSubEvent) : Prop :=
  l.Pairwise (fun a b => a.timestamp ≤ b.timestamp)

theorem perm_orderedInsertTs (e : PubSubEvent) (l : List PubSubEvent) :
    (orderedInsertTs e l).Perm (e :: l) := by
  induction l with
  | nil => exact List.Perm.refl _
  | cons x xs ih =>
    unfold orderedInsertTs
    by_cases h : e.timestamp ≤ x.timestamp
    · rw [if_pos h]
    · rw [if_neg h]
      exact (List.Perm.cons x ih).trans (List.Perm.swap e x xs)

theorem perm_sortByTimestamp (l : List PubSubEvent) : (sortByTimestamp l).Perm l := by
  induction l with
  | nil => exact List.Perm.refl _
  | cons x xs ih =>
    exact (perm_orderedInsertTs x (sortByTimestamp xs)).trans (List.Perm.cons x ih)

theorem sortedTs_orderedInsertTs (e : PubSubEvent) (l : List PubSubEvent)
    (h : SortedTs l) : SortedTs (orderedInsertTs e l) := by
  induction l with
  | nil => exact List.pairwise_singleton _ _
  | cons x xs ih =>
    unfold orderedInsertTs
    rcases List.pairwise_cons.mp h with ⟨hx, hxs⟩
    by_cases hle : e.timestamp ≤ x.timestamp
    · rw [if_pos hle]
      refine List.pairwise_cons.mpr ⟨?_, h⟩
      intro b hb
      rcases List.mem_cons.mp hb with hb1 | hb2
      · rw [hb1]; exact hle
      · exact le_trans hle (hx b hb2)
    · rw [if_neg hle]
      refine List.pairwise_cons.mpr ⟨?_, ih hxs⟩
      intro b hb
      have hb2 : b ∈ e :: xs := (perm_orderedInsertTs e xs).mem_iff.mp hb
      rcases List.mem_cons.mp hb2 with hb3 | hb4
      · rw [hb3]; exact le_of_lt (lt_of_not_le hle)
      · exact hx b hb4

theorem sortedTs_sortByTimestamp (l : List PubSubEvent) :
    SortedTs (sortByTimestamp l) := by
  induction l with
  | nil => exact List.Pairwise.nil
  | cons x xs ih => exact sortedTs_orderedInsertTs x (sortByTimestamp xs) ih

theorem eq_of_perm_of_sortedTs (l₁ l₂ : List PubSubEvent) (hp : l₁.Perm l₂)
    (hs₁ : SortedTs l₁) (hs₂ : SortedTs l₂)
    (hn : (l₁.map (fun e => e.timestamp)).Nodup) : l₁ = l₂ := by
  have hn₂ : (l₂.map (fun e => e.timestamp)).Nodup := ((hp.map _).nodup_iff).mp hn
  have hne₁ : l₁.Pairwise (fun a b => a.timestamp ≠ b.timestamp) :=
    List.pairwise_map.mp hn
  have hne₂ : l₂.Pairwise (fun a b => a.timestamp ≠ b.timestamp) :=
    List.pairwise_map.mp hn₂
  have hlt₁ : l₁.Pairwise (fun a b => a.timestamp < b.timestamp) :=
    (hs₁.and hne₁).imp (fun h => lt_of_le_of_ne h.1 h.2)
  have hlt₂ : l₂.Pairwise (fun a b => a.timestamp < b.timestamp) :=
    (hs₂.and hne₂).imp (fun h => lt_of_le_of_ne h.1 h.2)
  haveI : IsAntisymm PubSubEvent (fun a b => a.timestamp < b.timestamp) :=
    ⟨fun a b h1 h2 => absurd (h1.trans h2) (lt_irrefl _)⟩
  exact List.eq_of_perm_of_sorted hp hlt₁ hlt₂

theorem sortByTimestamp_eq_of_perm (l c : List PubSubEvent) (hp : l.Perm c)
    (hs : SortedTs c) (hn : (c.map (fun e => e.timestamp)).Nodup) :
    sortByTimestamp l = c :=
  eq_of_perm_of_sortedTs _ _ ((perm_sortByTimestamp l).trans hp)
    (sortedTs_sortByTimestamp l) hs
    (((((perm_sortByTimestamp l).trans hp).map _).nodup_iff).mpr hn)

/-- The chronological five-event scenario of spec §8 item 5: create file1,
create file2, change file1's permissions, rename file2, delete file1. -/
def scenarioEvents : List PubSubEvent :=
  [⟨"create", "file1", 1, none,
     some [("permissions", "rw-r--r--"), ("size", "100"), ("file_type", "text/plain")]⟩,
   ⟨"create", "file2", 2, none,
     some [("permissions", "rw-r--r--"), ("size", "200"), ("file_type", "text/plain")]⟩,
   ⟨"change_permission", "file1", 3, none, some [("permissions", "rwxr-xr-x")]⟩,
   ⟨"rename", "file2", 4, some "renamed_file2", none⟩,
   ⟨"delete", "file1", 5, none, none⟩]

/-- C4: starting from an empty store, any fetch order of the five scenario
events leaves exactly one record, at renamed_file2, carrying file2's
original size 200 from its create event, and the counts are create 2,
change_permission 1, rename 1, delete 1, move 0, errors 0 — the timestamp
sort makes the outcome order independent. -/
theorem process_events_scenario (l : List PubSubEvent)
    (hp : l.Perm scenarioEvents) :
    process_events [] l =
      ([⟨"renamed_file2", "rw-r--r--", 200, "text/plain", 4, none⟩],
       [("change_permission", 1), ("delete", 1), ("create", 2), ("rename", 1),
        ("move", 0), ("errors", 0)]) := by
  have hsort : sortByTimestamp l = scenarioEvents :=
    sortByTimestamp_eq_of_perm l scenarioEvents hp (by decide) (by decide)
  have hne : l ≠ [] := by
    intro h
    have hlen := hp.length_eq
    rw [h] at hlen
    simp [scenarioEvents] at hlen
  unfold process_events
  rw [if_neg (by simp [hne]), hsort]
  rfl

/-- C4 witness: the scenario theorem applied at the chronological order. -/
theorem process_events_scenario_witness :
    process_events [] scenarioEvents =
      ([⟨"renamed_file2", "rw-r--r--", 200, "text/plain", 4, none⟩],
       [("change_permission", 1), ("delete", 1), ("create", 2), ("rename", 1),
        ("move", 0), ("errors", 0)]) :=
  process_events_scenario scenarioEvents (List.Perm.refl _)

/-- The type-specific precondition failures of the event handlers: delete,
change_permission, rename or move of a path with no stored record, or
create of a path that already has a record. -/
def preconditionMissing (db : DB) (e : PubSubEvent) : Prop :=
  (e.event_type = "create" ∧ (get_file_record db e.file_path).isSome = true) ∨
  (e.event_type ≠ "create" ∧ get_file_record db e.file_path = none)

theorem validEventType_mem (e : PubSubEvent) (hv : validate_event e = true) :
    e.event_type = "change_permission" ∨ e.event_type = "delete" ∨
      e.event_type = "create" ∨ e.event_type = "rename" ∨
      e.event_type = "move" := by
  unfold validate_event at hv
  simp only [Bool.and_eq_true] at hv
  simpa using hv.1.1.2

theorem handler_noop_of_preconditionMissing (db : DB) (e : PubSubEvent)
    (hv : validate_event e = true) (hpre : preconditionMissing db e) :
    process_single_event db e = (db, false) := by
  have hmem := validEventType_mem e hv
  rcases hpre with ⟨ht, hsome⟩ | ⟨ht, hnone⟩
  · rcases Option.isSome_iff_exists.mp hsome with ⟨r, hr⟩
    simp [process_single_event, ht, handle_create, hr]
  · rcases hmem with h | h | h | h | h
    · simp [process_single_event, h, handle_change_permission, hnone]
    · simp [process_single_event, h, handle_delete, hnone]
    · exact absurd h ht
    · simp [process_single_event, h, handle_rename, hnone]
    · simp [process_single_event, h, handle_move, hnone]

/-- C10: an event that passes validation but whose type-specific
precondition fails leaves the store unchanged yet is counted under its own
event type, with the errors counter untouched — so per-type counts do not
imply store mutations. -/
theorem precondition_noop_counted (db : DB) (e : PubSubEvent)
    (hv : validate_event e = true) (hpre : preconditionMissing db e) :
    process_events db [e] = (db, incrementCount initialEventCounts e.event_type) ∧
    (process_events db [e]).2.lookup e.event_type = some 1 ∧
    (process_events db [e]).2.lookup "errors" = some 0 := by
  have hmain : process_events db [e] =
      (db, incrementCount initialEventCounts e.event_type) := by
    unfold process_events
    rw [if_neg (by simp)]
    show processEventsStep (db, initialEventCounts) e =
      (db, incrementCount initialEventCounts e.event_type)
    unfold processEventsStep
    rw [if_pos hv, handler_noop_of_preconditionMissing db e hv hpre]
  refine ⟨hmain, ?_, ?_⟩
  · rw [hmain]
    rcases validEventType_mem e hv with h | h | h | h | h <;> rw [h] <;> rfl
  · rw [hmain]
    rcases validEventType_mem e hv with h | h | h | h | h <;> rw [h] <;> rfl

/-- C10 witness: the theorem applied to a delete event for a path absent
from a concrete one-record store. -/
theorem precondition_noop_counted_witness :
    process_events [⟨"a.txt", "rw-r--r--", 3, "text/plain", 1, none⟩]
        [⟨"delete", "missing.txt", 9, none, none⟩] =
      ([⟨"a.txt", "rw-r--r--", 3, "text/plain", 1, none⟩],
       incrementCount initialEventCounts "delete") :=
  (precondition_noop_counted
    [⟨"a.txt", "rw-r--r--", 3, "text/plain", 1, none⟩]
    ⟨"delete", "missing.txt", 9, none, none⟩
    (by decide) (by right; exact ⟨by decide, by decide⟩)).1

/-- One data row of a state CSV as pandas.read_csv presents it to the diff
engine: the file_path join key plus one optional cell per comparison
column, none being NaN for an empty cell. -/
structure CsvRow where
  file_path : String
  permissions : Option String := none
  size : Option String := none
  file_type : Option String := none
  last_modified : Option String := none
  internal_id : Option String := none
deriving DecidableEq, Repr

/-- The metadata dict the diff engine attaches to every FileOperation: the
row.get snapshot of the five comparison cells. -/
structure RowMetadata where
  permissions : Option String
  size : Option String
  file_type : Option String
  last_modified : Option String
  internal_id : Option String
deriving DecidableEq, Repr

def CsvRow.meta (r : CsvRow) : RowMetadata :=
  ⟨r.permissions, r.size, r.file_type, r.last_modified, r.internal_id⟩

/-- FileOperation as produced by the diff engine (new_path is never set by
it). -/
structure CsvFileOperation where
  operation_type : String
  file_path : String
  new_path : Option String := none
  metadata : RowMetadata
deriving DecidableEq, Repr

/-- CSVProcessor._generate_delete_operations over a frame's rows. -/
def generate_delete_operations (rows : List CsvRow) : List CsvFileOperation :=
  rows.map (fun r => ⟨"delete", r.file_path, none, r.meta⟩)

/-- CSVProcessor._generate_create_operations over a frame's rows. -/
def generate_create_operations (rows : List CsvRow) : List CsvFileOperation :=
  rows.map (fun r => ⟨"create", r.file_path, none, r.meta⟩)

/-- CSVProcessor._generate_update_operations over a frame's rows. -/
def generate_update_operations (rows : List CsvRow) : List CsvFileOperation :=
  rows.map (fun r => ⟨"update", r.file_path, none, r.meta⟩)

/-- CSVProcessor._find_deleted_files: the isin mask keeps old rows whose
file_path is absent from new, in old row order (the empty-frame early
return coincides with filtering the empty list). -/
def find_deleted_files (old new : List CsvRow) : List CsvRow :=
  old.filter (fun o => !(new.any (fun n => decide (n.file_path = o.file_path))))

/-- CSVProcessor._find_created_files, symmetric to the deleted case. -/
def find_created_files (old new : List CsvRow) : List CsvRow :=
  new.filter (fun n => !(old.any (fun o => decide (o.file_path = n.file_path))))

/-- The per-field change mask of _find_updated_files:
(old != new) and not (old.isna() and new.isna()); Option equality already
makes two NaN cells compare unchanged, agreeing with the masked pandas
result in which NaN != NaN is true but excluded. -/
def cellChanged (a b : Option String) : Bool :=
  decide (a ≠ b) && !(a.isNone && b.isNone)

def rowChanged (o n : CsvRow) : Bool :=
  cellChanged o.permissions n.permissions || cellChanged o.size n.size ||
  cellChanged o.file_type n.file_type ||
  cellChanged o.last_modified n.last_modified ||
  cellChanged o.internal_id n.internal_id

/-- pd.merge inner join on file_path: left-frame key order, right-frame
order within one key, many-to-many on duplicated keys. -/
def mergeOnFilePath (old new : List CsvRow) : List (CsvRow × CsvRow) :=
  old.flatMap (fun o =>
    (new.filter (fun n => decide (n.file_path = o.file_path))).map (fun n => (o, n)))

/-- CSVProcessor._find_updated_files: the changed merged rows projected to
the join key plus the new-side columns, i.e. their new-side row. -/
def find_updated_files (old new : List CsvRow) : List CsvRow :=
  ((mergeOnFilePath old new).filter (fun pr => rowChanged pr.1 pr.2)).map
    (fun pr => pr.2)

/-- CSVProcessor.compare_csv_files on the parsed rows of two existing input
files (pd.read_csv of each export; a header-only file is the empty frame). -/
def compare_csv_files (old new : List CsvRow) : List CsvFileOperation :=
  if old.isEmpty && new.isEmpty then []
  else if old.isEmpty then generate_create_operations new
  else if new.isEmpty then generate_delete_operations old
  else
    generate_delete_operations (find_deleted_files old new) ++
    generate_create_operations (find_created_files old new) ++
    generate_update_operations (find_updated_files old new)

theorem filter_path_eq_find? (rows : List CsvRow) (p : String)
    (hn : (rows.map (fun r => r.file_path)).Nodup) :
    rows.filter (fun n => decide (n.file_path = p)) =
      (rows.find? (fun n => decide (n.file_path = p))).toList := by
  induction rows with
  | nil => rfl
  | cons x xs ih =>
    rw [List.map_cons, List.nodup_cons] at hn
    rcases hn with ⟨hnotin, hrest⟩
    by_cases hx : x.file_path = p
    · have hfilter : xs.filter (fun n => decide (n.file_path = p)) = [] := by
        apply List.filter_eq_nil_iff.mpr
        intro y hy
        simp only [decide_eq_true_eq]
        intro hyp
        exact hnotin (List.mem_map.mpr ⟨y, hy, by rw [hyp, hx]⟩)
      simp [List.filter_cons, List.find?, hx, hfilter]
    · simp only [List.filter_cons, List.find?, decide_eq_false hx]
      exact ih hrest

/-- The one update compare_csv_files owes a shared path, per the claim: the
new-side row when its comparison cells changed against the old row. -/
def updateForPath (new : List CsvRow) (o : CsvRow) : Option CsvFileOperation :=
  match new.find? (fun n => decide (n.file_path = o.file_path)) with
  | none => none
  | some n =>
    if rowChanged o n then some ⟨"update", n.file_path, none, n.meta⟩ else none

theorem find_updated_eq_filterMap (old new : List CsvRow)
    (hn : (new.map (fun r => r.file_path)).Nodup) :
    generate_update_operations (find_updated_files old new) =
      old.filterMap (updateForPath new) := by
  induction old with
  | nil => rfl
  | cons o os ih =>
    unfold generate_update_operations find_updated_files mergeOnFilePath
    rw [List.flatMap_cons, List.filter_append, List.map_append, List.map_append]
    unfold generate_update_operations find_updated_files mergeOnFilePath at ih
    rw [ih, List.filterMap_cons]
    rw [List.filter_map, List.map_map]
    rw [filter_path_eq_find? new o.file_path hn]
    unfold updateForPath
    cases hfind : new.find? (fun n => decide (n.file_path = o.file_path)) with
    | none => rfl
    | some n =>
      by_cases hch : rowChanged o n
      · simp [Option.toList, List.filter_cons, hch, Function.comp]
      · simp [Option.toList, List.filter_cons, hch, Function.comp]

/-- C5: output characterization of compare_csv_files for inputs whose rows
have unique paths (as state exports do): both sides empty gives no
operations; an empty old side gives one create per new row in source order;
an empty new side gives one delete per old row in source order; otherwise
all deletes for old-only paths come first, then all creates for new-only
paths, then one update per shared path whose comparison cells changed. -/
theorem compare_csv_files_characterization (old new : List CsvRow)
    (ho : (old.map (fun r => r.file_path)).Nodup)
    (hn : (new.map (fun r => r.file_path)).Nodup) :
    (old = [] → new = [] → compare_csv_files old new = []) ∧
    (old = [] → compare_csv_files old new =
      new.map (fun r => ⟨"create", r.file_path, none, r.meta⟩)) ∧
    (new = [] → compare_csv_files old new =
      old.map (fun r => ⟨"delete", r.file_path, none, r.meta⟩)) ∧
    (old ≠ [] → new ≠ [] →
      compare_csv_files old new =
        (old.filter (fun o => !(new.any (fun n => decide (n.file_path = o.file_path))))).map
          (fun r => (⟨"delete", r.file_path, none, r.meta⟩ : CsvFileOperation)) ++
        (new.filter (fun n => !(old.any (fun o => decide (o.file_path = n.file_path))))).map
          (fun r => (⟨"create", r.file_path, none, r.meta⟩ : CsvFileOperation)) ++
        old.filterMap (updateForPath new)) := by
  refine ⟨?_, ?_, ?_, ?_⟩
  · intro h1 h2; subst h1; subst h2; rfl
  · intro h1; subst h1
    cases new with
    | nil => rfl
    | cons x xs => rfl
  · intro h2; subst h2
    cases old with
    | nil => rfl
    | cons x xs => rfl
  · intro h1 h2
    unfold compare_csv_files
    rw [if_neg (by simp [h1]), if_neg (by simp [h1]), if_neg (by simp [h2])]
    rw [find_updated_eq_filterMap old new hn]
    rfl

/-- C5 witness: the characterization applied to a concrete one-row old
side and an empty new side. -/
theorem compare_csv_files_characterization_witness :
    compare_csv_files
        [({ file_path := "a", permissions := some "rw" } : CsvRow)] [] =
      [({ file_path := "a", permissions := some "rw" } : CsvRow)].map
        (fun r => (⟨"delete", r.file_path, none, r.meta⟩ : CsvFileOperation)) :=
  (compare_csv_files_characterization
    [({ file_path := "a", permissions := some "rw" } : CsvRow)] []
    (by decide) (by decide)).2.2.1 rfl

/-- Python dict insertion for the path-keyed record dicts of
generate_operations_from_records: an existing key keeps its position and
takes the new value, a fresh key appends. -/
def insertDictEntry (m : List (String × FileRecord)) (r : FileRecord) :
    List (String × FileRecord) :=
  if m.any (fun kv => decide (kv.1 = r.file_path)) then
    m.map (fun kv => if kv.1 = r.file_path then (kv.1, r) else kv)
  else m ++ [(r.file_path, r)]

/-- The record.file_path -> record dict comprehension. -/
def recordDict (rs : List FileRecord) : List (String × FileRecord) :=
  rs.foldl insertDictEntry []

/-- datetime.isoformat on an abstract instant: an injective text rendering,
as ISO-8601 text is on datetimes. -/
def isoformat (t : Nat) : String := toString t

/-- The metadata dict generate_operations_from_records attaches to its
operations: typed record field values, last_modified as isoformat text. -/
structure RecordOpMetadata where
  permissions : String
  size : Int
  file_type : String
  last_modified : String
  internal_id : Option String
deriving DecidableEq, Repr

/-- FileOperation as produced by the in-memory diff. -/
structure RecordOperation where
  operation_type : String
  file_path : String
  new_path : Option String := none
  metadata : RecordOpMetadata
deriving DecidableEq, Repr

def recordOpMetadata (r : FileRecord) : RecordOpMetadata :=
  ⟨r.permissions, r.size, r.file_type, isoformat r.last_modified, r.internal_id⟩

/-- CSVProcessor._records_differ: plain inequality over the five comparison
fields, with no both-absent exception. -/
def records_differ (a b : FileRecord) : Bool :=
  decide (a.permissions ≠ b.permissions) || decide (a.size ≠ b.size) ||
  decide (a.file_type ≠ b.file_type) ||
  decide (a.last_modified ≠ b.last_modified) ||
  decide (a.internal_id ≠ b.internal_id)

/-- CSVProcessor.generate_operations_from_records: deletes for paths only
in the old dict in its order, then, over the new dict in its order, creates
for fresh paths and updates for shared paths whose records differ. -/
def generate_operations_from_records (old new : List FileRecord) :
    List RecordOperation :=
  let oldDict := recordDict old
  let newDict := recordDict new
  oldDict.filterMap (fun kv =>
    if newDict.any (fun kv2 => decide (kv2.1 = kv.1)) then none
    else some ⟨"delete", kv.1, none, recordOpMetadata kv.2⟩) ++
  newDict.filterMap (fun kv =>
    match oldDict.find? (fun kv2 => decide (kv2.1 = kv.1)) with
    | none => some ⟨"create", kv.1, none, recordOpMetadata kv.2⟩
    | some kvOld =>
      if records_differ kvOld.2 kv.2 then
        some ⟨"update", kv.1, none, recordOpMetadata kv.2⟩
      else none)

/-- A record field as a CSV cell after csv.DictWriter export (None and the
empty text both print as an empty cell) and pandas.read_csv (an empty cell
reads back as NaN, here none). -/
def csvCell (s : String) : Option String := if s = "" then none else some s

def csvCellOpt : Option String → Option String
  | none => none
  | some s => csvCell s

/-- The CSV row the export (FileRecord.to_dict, last_modified.isoformat)
writes for a record, as pandas reads it back for compare_csv_files. -/
def csvRowOfRecord (r : FileRecord) : CsvRow :=
  { file_path := r.file_path
    permissions := csvCell r.permissions
    size := csvCell (toString r.size)
    file_type := csvCell r.file_type
    last_modified := csvCell (isoformat r.last_modified)
    internal_id := csvCellOpt r.internal_id }

/-- C2: a pair of snapshots of the same logical record set — one shared
path whose internal_id comparison field is absent on both sides of the CSV
form (None on the old side, empty text on the new side) — on which the two
diff algorithms produce different operation lists: compare_csv_files sees
no change because the cells are both absent, while the plain inequality of
generate_operations_from_records emits an update. -/
theorem diff_algorithms_disagree :
    ∃ (old new : List FileRecord),
      old.map (fun r => r.file_path) = new.map (fun r => r.file_path) ∧
      (∃ ro ∈ old, ∃ rn ∈ new, ro.file_path = rn.file_path ∧
        (csvRowOfRecord ro).internal_id = none ∧
        (csvRowOfRecord rn).internal_id = none) ∧
      compare_csv_files (old.map csvRowOfRecord) (new.map csvRowOfRecord) = [] ∧
      generate_operations_from_records old new ≠ [] := by
  refine ⟨[⟨"a.txt", "rw-r--r--", 1, "text/plain", 0, none⟩],
    [⟨"a.txt", "rw-r--r--", 1, "text/plain", 0, some ""⟩],
    by decide, by decide, by decide, by decide⟩

/-- The filesystem as the set of existing paths, listed. -/
abbrev FileSystem := List String

/-- The timestamped old-state temporary CSV path of run_incremental_sync. -/
def oldCsvPath (ts : String) : String :=
  "data/sync_state_old_" ++ ts ++ ".csv"

/-- The timestamped new-state temporary CSV path of run_incremental_sync. -/
def newCsvPath (ts : String) : String :=
  "data/sync_state_new_" ++ ts ++ ".csv"

/-- SyncService._cleanup_temp_files: for each non-None path, remove it when
it exists (removal modelled as succeeding). -/
def cleanup_temp_files (fs : FileSystem) (paths : List (Option String)) :
    FileSystem :=
  paths.foldl
    (fun acc p =>
      match p with
      | some q => acc.filter (fun x => !decide (x = q))
      | none => acc) fs

/-- The outcome of each fallible step of run_incremental_sync, decided by
the environment: whether the connection tests pass, whether each state
export creates its file and whether it raises, whether the event pull
raises, and whether the diff raises. Event processing never raises
(process_events counts failures), executed operations are caught per
operation and touch no temporary file, and result reporting is
best-effort; none of those affect the temporary files. -/
structure SyncStepOutcomes where
  connectionsOk : Bool
  exportOldCreatesFile : Bool
  exportOldOk : Bool
  eventPullOk : Bool
  exportNewCreatesFile : Bool
  exportNewOk : Bool
  diffOk : Bool

/-- SyncService.run_incremental_sync restricted to its effect on the two
temporary CSV files: the body assigns old_csv_path before the first export
and new_csv_path before the second, re-raises on a failed step, and the
finally block always runs _cleanup_temp_files on both variables (still None
when the failure happened before their assignment). The Bool is success
(true) versus a re-raised exception. -/
def run_incremental_sync (o : SyncStepOutcomes) (ts : String)
    (fs : FileSystem) : FileSystem × Bool :=
  if !o.connectionsOk then (cleanup_temp_files fs [none, none], false)
  else
    let oldP := oldCsvPath ts
    let fs1 := if o.exportOldCreatesFile then oldP :: fs else fs
    if !o.exportOldOk then (cleanup_temp_files fs1 [some oldP, none], false)
    else if !o.eventPullOk then (cleanup_temp_files fs1 [some oldP, none], false)
    else
      let newP := newCsvPath ts
      let fs2 := if o.exportNewCreatesFile then newP :: fs1 else fs1
      if !o.exportNewOk then (cleanup_temp_files fs2 [some oldP, some newP], false)
      else if !o.diffOk then (cleanup_temp_files fs2 [some oldP, some newP], false)
      else (cleanup_temp_files fs2 [some oldP, some newP], true)

theorem oldCsvPath_ne_newCsvPath (ts : String) :
    oldCsvPath ts ≠ newCsvPath ts := by
  intro h
  unfold oldCsvPath newCsvPath at h
  have h2 := congrArg String.data h
  simp only [String.data_append] at h2
  have h3 := (List.append_inj' h2 (by decide)).1
  have h4 := (List.append_inj h3 (by decide)).1
  exact absurd h4 (by decide)

theorem notMem_filter_self (fs : FileSystem) (q : String) :
    q ∉ fs.filter (fun x => !decide (x = q)) := by
  simp [List.mem_filter]

theorem mem_filter_ne_of_mem (fs : FileSystem) (a q : String)
    (h : a ∈ fs.filter (fun x => !decide (x = q))) : a ∈ fs :=
  (List.mem_filter.mp h).1

/-- C6: whenever run_incremental_sync terminates — returning statistics or
re-raising from the connection test, an export, the event pull or the
diff — neither timestamped temporary CSV file exists afterwards, provided
neither pre-existed (the names are freshly timestamped). -/
theorem incremental_sync_cleans_temp_files (o : SyncStepOutcomes)
    (ts : String) (fs : FileSystem)
    (hOld : oldCsvPath ts ∉ fs) (hNew : newCsvPath ts ∉ fs) :
    oldCsvPath ts ∉ (run_incremental_sync o ts fs).1 ∧
    newCsvPath ts ∉ (run_incremental_sync o ts fs).1 := by
  have hne := oldCsvPath_ne_newCsvPath ts
  unfold run_incremental_sync cleanup_temp_files
  rcases o with ⟨c, e1c, e1k, ev, e2c, e2k, d⟩
  cases c <;> cases e1c <;> cases e1k <;> cases ev <;> cases e2c <;>
    cases e2k <;> cases d <;>
    simp_all [List.mem_filter, List.mem_cons]

/-- C6 witness: the cleanup theorem applied to a concrete all-successful
run over an initially empty filesystem. -/
theorem incremental_sync_cleans_temp_files_witness :
    oldCsvPath "20240101_000000" ∉
      (run_incremental_sync ⟨true, true, true, true, true, true, true⟩
        "20240101_000000" []).1 ∧
    newCsvPath "20240101_000000" ∉
      (run_incremental_sync ⟨true, true, true, true, true, true, true⟩
        "20240101_000000" []).1 :=
  incremental_sync_cleans_temp_files ⟨true, true, true, true, true, true, true⟩
    "20240101_000000" [] (by simp) (by simp)

/-- An API-client call's visible outcome: a ValueError raised by the
pre-network validation, or completion with the transport's result. -/
inductive ApiOutcome (α : Type) where
  | invalidInput (msg : String)
  | completed (a : α)
deriving DecidableEq, Repr

def ApiOutcome.isInvalidInput {α : Type} : ApiOutcome α → Bool
  | invalidInput _ => true
  | completed _ => false

/-- A call raised invalid input having issued zero HTTP requests. -/
def invalidBeforeRequest {α : Type} (r : ApiOutcome α × Nat) : Prop :=
  r.1.isInvalidInput = true ∧ r.2 = 0

/-- InfrastructureAPI.update_permissions: file_path must be non-empty
before the POST; net abstracts the transport result and the Nat counts
_make_request calls. -/
def update_permissions {α : Type} (file_path : String)
    (_permissions _owner _group : Option String) (net : α) :
    ApiOutcome α × Nat :=
  if file_path = "" then
    (ApiOutcome.invalidInput "file_path cannot be empty", 0)
  else (ApiOutcome.completed net, 1)

/-- InfrastructureAPI.save_to_disk validation, in source order: non-empty
file_path, known operation, a content stream for create/update (streams
are truthy objects, so only None fails), a truthy new_path for
rename/move; then the one multipart POST. -/
def save_to_disk {α : Type} (operation : String) (file_path : String)
    (file_stream : Option Unit) (new_path : Option String) (net : α) :
    ApiOutcome α × Nat :=
  if file_path = "" then
    (ApiOutcome.invalidInput "file_path cannot be empty", 0)
  else if !(["create", "update", "rename", "move", "delete", "get"].contains operation) then
    (ApiOutcome.invalidInput "Invalid operation", 0)
  else if ["create", "update"].contains operation && file_stream.isNone then
    (ApiOutcome.invalidInput "operation requires file_stream", 0)
  else if ["rename", "move"].contains operation && !truthyStrOpt new_path then
    (ApiOutcome.invalidInput "operation requires new_path", 0)
  else (ApiOutcome.completed net, 1)

/-- InfrastructureAPI.get_pub_sub_events: count must lie in 1..100 before
the GET. -/
def get_pub_sub_events {α : Type} (count : Int) (net : α) :
    ApiOutcome α × Nat :=
  if count < 1 || count > 100 then
    (ApiOutcome.invalidInput "count must be between 1 and 100", 0)
  else (ApiOutcome.completed net, 1)

/-- InfrastructureAPI.report_results: the results payload must be
non-empty (a falsy dict is rejected) before the POST. -/
def report_results {α : Type} (results : List (String × String)) (net : α) :
    ApiOutcome α × Nat :=
  if results.isEmpty then
    (ApiOutcome.invalidInput "results cannot be empty", 0)
  else (ApiOutcome.completed net, 1)

/-- C7: each listed bad argument makes the API client raise an
invalid-input error before issuing any HTTP request: empty file_path on
update_permissions or save_to_disk, count 0 or 101 on get_pub_sub_events,
an empty results payload on report_results, create/update save_to_disk
with no content stream, and rename/move save_to_disk with no new_path
(absent or empty). -/
theorem api_client_validation {α : Type} (net : α)
    (perms owner grp : Option String) (stream : Option Unit)
    (np : Option String) (p op : String) :
    invalidBeforeRequest (update_permissions "" perms owner grp net) ∧
    invalidBeforeRequest (save_to_disk op "" stream np net) ∧
    invalidBeforeRequest (get_pub_sub_events 0 net) ∧
    invalidBeforeRequest (get_pub_sub_events 101 net) ∧
    invalidBeforeRequest (report_results [] net) ∧
    invalidBeforeRequest (save_to_disk "create" p none np net) ∧
    invalidBeforeRequest (save_to_disk "update" p none np net) ∧
    invalidBeforeRequest (save_to_disk "rename" p stream none net) ∧
    invalidBeforeRequest (save_to_disk "move" p stream none net) ∧
    invalidBeforeRequest (save_to_disk "rename" p stream (some "") net) ∧
    invalidBeforeRequest (save_to_disk "move" p stream (some "") net) := by
  refine ⟨⟨rfl, rfl⟩, ⟨rfl, rfl⟩, ⟨rfl, rfl⟩, ⟨rfl, rfl⟩, ⟨rfl, rfl⟩,
    ?_, ?_, ?_, ?_, ?_, ?_⟩ <;>
  · by_cases hp : p = ""
    · exact ⟨by simp [save_to_disk, hp, ApiOutcome.isInvalidInput],
        by simp [save_to_disk, hp]⟩
    · exact ⟨by simp [save_to_disk, hp, truthyStrOpt, ApiOutcome.isInvalidInput],
        by simp [save_to_disk, hp, truthyStrOpt]⟩

/-- The exceptions S3Manager._retry_operation distinguishes: transient
covers ClientError and EndpointConnectionError (caught and retried), fatal
is any other exception (propagating immediately). -/
inductive S3Error where
  | transient (msg : String)
  | fatal (msg : String)
deriving DecidableEq, Repr

/-- The observable trace of one _retry_operation run: the returned value or
re-raised error (none only for max_retries = 0, where the loop body never
runs and Python falls through returning None), how many times the operation
was invoked, and the sleep durations in seconds, in order. -/
structure RetryTrace (α : Type) where
  result : Option (Except S3Error α)
  invocations : Nat
  sleeps : List ℚ
deriving Repr

/-- The retry loop over the remaining attempt indices (the run uses
range(max_retries), so the last index is the one where
attempt == max_retries - 1 and the error is re-raised instead of slept
on). op gives each attempt's outcome. -/
def retryFromAttempts {α : Type} (op : Nat → Except S3Error α)
    (backoff_factor : ℚ) : List Nat → RetryTrace α
  | [] => ⟨none, 0, []⟩
  | a :: rest =>
    match op a with
    | Except.ok v => ⟨some (Except.ok v), 1, []⟩
    | Except.error (S3Error.fatal m) => ⟨some (Except.error (S3Error.fatal m)), 1, []⟩
    | Except.error (S3Error.transient m) =>
      if rest.isEmpty then ⟨some (Except.error (S3Error.transient m)), 1, []⟩
      else
        let t := retryFromAttempts op backoff_factor rest
        ⟨t.result, t.invocations + 1, backoff_factor * 2 ^ a :: t.sleeps⟩

/-- S3Manager._retry_operation: up to max_retries attempts, sleeping
backoff_factor * 2 ^ attempt seconds after each non-final transient
failure, re-raising the final error. -/
def retry_operation {α : Type} (op : Nat → Except S3Error α)
    (max_retries : Nat) (backoff_factor : ℚ) : RetryTrace α :=
  retryFromAttempts op backoff_factor (List.range max_retries)

theorem retryFromAttempts_sleeps {α : Type} (op : Nat → Except S3Error α)
    (b : ℚ) (n : Nat) :
    ∀ (a i : Nat) (s : ℚ),
      (retryFromAttempts op b (List.range' a n)).sleeps.get? i = some s →
      s = b * 2 ^ (a + i) := by
  induction n with
  | zero => intro a i s h; simp [retryFromAttempts] at h
  | succ m ih =>
    intro a i s h
    rw [List.range'_succ] at h
    cases hop : op a with
    | ok v => simp [retryFromAttempts, hop] at h
    | error e =>
      cases e with
      | fatal msg => simp [retryFromAttempts, hop] at h
      | transient msg =>
        by_cases hm : (List.range' (a + 1) m).isEmpty
        · simp [retryFromAttempts, hop, hm] at h
        · simp only [retryFromAttempts, hop, hm, Bool.false_eq_true,
            if_false] at h
          cases i with
          | zero =>
            simp only [List.get?_cons_zero, Option.some.injEq] at h
            rw [Nat.add_zero, ← h]
          | succ j =>
            simp only [List.get?_cons_succ] at h
            rw [ih (a + 1) j s h,
              show a + 1 + j = a + (j + 1) from by omega]

/-- C9: the retry helper returns the second attempt's value after a
transient first failure; with max_retries = 2 a persistently transient
operation is invoked exactly 2 times and the final error re-raised; and
the i-th sleep (after failed attempt i+1, counting attempts from 1) is
backoff_factor * 2 ^ i seconds. -/
theorem retry_helper_behavior {α : Type} (op : Nat → Except S3Error α)
    (max_retries : Nat) (b : ℚ) (v : α) (m0 : String) :
    (2 ≤ max_retries → op 0 = Except.error (S3Error.transient m0) →
      op 1 = Except.ok v →
      (retry_operation op max_retries b).result = some (Except.ok v)) ∧
    ((∀ n, ∃ m, op n = Except.error (S3Error.transient m)) →
      (retry_operation op 2 b).invocations = 2 ∧
      ∃ m1, op 1 = Except.error (S3Error.transient m1) ∧
        (retry_operation op 2 b).result =
          some (Except.error (S3Error.transient m1))) ∧
    (∀ i s, (retry_operation op max_retries b).sleeps.get? i = some s →
      s = b * 2 ^ i) := by
  refine ⟨?_, ?_, ?_⟩
  · intro hmr h0 h1
    obtain ⟨k, hk⟩ : ∃ k, max_retries = k + 2 := ⟨max_retries - 2, by omega⟩
    subst hk
    unfold retry_operation
    rw [List.range_eq_range']
    have hr : List.range' 0 (k + 2) = 0 :: 1 :: List.range' 2 k := by
      rw [show k + 2 = (k + 1) + 1 from rfl, List.range'_succ, List.range'_succ]
    rw [hr]
    simp [retryFromAttempts, h0, h1]
  · intro hall
    obtain ⟨ma, h0⟩ := hall 0
    obtain ⟨mb, h1⟩ := hall 1
    refine ⟨?_, mb, h1, ?_⟩ <;>
    · unfold retry_operation
      rw [show List.range 2 = [0, 1] from rfl]
      simp [retryFromAttempts, h0, h1]
  · intro i s h
    unfold retry_operation at h
    rw [List.range_eq_range'] at h
    have h2 := retryFromAttempts_sleeps op b max_retries 0 i s h
    rw [h2, Nat.zero_add]

/-- C9 witness: the behavior theorem applied to a concrete operation that
fails transiently once then succeeds, and to one that always fails. -/
theorem retry_helper_behavior_witness :
    (retry_operation
        (fun n => if n = 0 then Except.error (S3Error.transient "boom")
                  else Except.ok (42 : Nat)) 3 1).result =
      some (Except.ok 42) ∧
    (retry_operation
        (fun _ => (Except.error (S3Error.transient "down") : Except S3Error Nat))
        2 1).invocations = 2 ∧
    (1 : ℚ) = 1 * 2 ^ 0 := by
  refine ⟨?_, ?_, ?_⟩
  · exact (retry_helper_behavior
      (fun n => if n = 0 then Except.error (S3Error.transient "boom")
                else Except.ok (42 : Nat)) 3 1 42 "boom").1
      (by omega) (by rfl) (by rfl)
  · exact ((retry_helper_behavior
      (fun _ => (Except.error (S3Error.transient "down") : Except S3Error Nat))
      2 1 0 "down").2.1 (fun n => ⟨"down", rfl⟩)).1
  · refine (retry_helper_behavior
      (fun _ => (Except.error (S3Error.transient "down") : Except S3Error Nat))
      2 1 0 "down").2.2 0 1 ?_
    show some ((1 : ℚ) * 2 ^ 0) = some 1
    norm_num

end CloudSync
